import Mathlib

/-!
Shallow embedding of `sqlalchemy_utils/functions/batch_fetch.py`.

The module batch-fetches relationship attributes for a collection of mapped
entities.  The embedding models:
  * mapped instances (`Entity`) carrying column values and already-loaded
    relationship attributes,
  * relationship metadata (`RelProp`) as SQLAlchemy exposes it
    (`local_columns`, `remote_side`, `secondary`, `direction`, ...),
  * the database/session as tables of rows queried by predicate filters,
  * `Path`, the fetcher variants, `CompositeFetcher`, the coordinator and
    `batch_fetch` itself, translated line by line from the source.

Python exceptions are modelled by `Err`; effectful functions return the
assignments performed so far (`set_committed_value` calls), the list of
queries issued, and an optional error, mirroring the fact that Python
mutates entities before a later statement raises.
-/

namespace BatchFetch

/-- Column names, `column.name` in SQLAlchemy. -/
abbrev ColName := String

/-- A nullable column value (`None` = SQL NULL). -/
abbrev Val := Option Int

/-- Python exceptions raised by the source, identified by their raise site. -/
inductive Err where
  /-- `'Given attribute is not a relationship property.'` in `Path.__init__`. -/
  | notARelationship
  /-- `'Unknown path type.'` in `Path.parse`. -/
  | unknownPathType
  /-- `'Each relationship property must have the same class when using
      CompositeFetcher.'` in `CompositeFetcher.__init__`. -/
  | incompatibleFetcher
  /-- Python `IndexError`, e.g. `entities[0]` on an empty list. -/
  | indexError
  /-- Python `TypeError`, e.g. `list.extend` of a non-iterable or unpacking a
      mapped instance as a tuple. -/
  | typeError
  /-- Python `AttributeError` from `getattr` on a missing attribute. -/
  | attributeError
deriving DecidableEq

/-- A foreign key attached to an association-table column: `fk.column.table`
    (the table the key points at, identified by name) and `fk.parent.name`
    (the owning column). -/
structure FKey where
  target_table : String
  parent_name : ColName
deriving DecidableEq

/-- A column of `prop.remote_side` together with its `foreign_keys`. -/
structure RemoteCol where
  name : ColName
  foreign_keys : List FKey
deriving DecidableEq

/-- A row of an association (secondary) table: named column values. -/
abbrev AssocRow := List (ColName × Val)

/-- The association table of a many-to-many relationship (`prop.secondary`). -/
structure Secondary where
  rows : List AssocRow
deriving DecidableEq

/-- `prop.secondaryjoin`, the usual equality join condition
    `secondary.c[secCol] == related_table[relCol]`. -/
structure SecJoin where
  secCol : ColName
  relCol : ColName
deriving DecidableEq

/-- `prop.direction` of a relationship. -/
inductive Direction where
  | MANYTOONE
  | ONETOMANY
  | MANYTOMANY
deriving DecidableEq

/-- `direction.name`, the string the source compares against. -/
def Direction.name : Direction → String
  | .MANYTOONE => "MANYTOONE"
  | .ONETOMANY => "ONETOMANY"
  | .MANYTOMANY => "MANYTOMANY"

/-- A `RelationshipProperty`: the metadata the source reads.  `secondaryjoin`
    is only consulted when `secondary` is present. -/
structure RelProp where
  /-- `prop.key`: the attribute name populated on the parents. -/
  key : String
  /-- `prop.mapper.class_`, identified by model name. -/
  mapper_class : String
  direction : Direction
  secondary : Option Secondary
  secondaryjoin : SecJoin
  /-- `prop.local_columns` as an ordered list (the source takes `list(...)[0]`). -/
  local_columns : List ColName
  /-- `prop.remote_side` as an ordered list. -/
  remote_side : List RemoteCol
  /-- `prop.back_populates` (None when the relationship declares no inverse). -/
  back_populates : Option String
deriving DecidableEq

/-- A class-level attribute of a mapped class: either a plain column or a
    relationship (`attr.property` under `InstrumentedAttribute`). -/
inductive AttrProp where
  | column (name : ColName)
  | rel (p : RelProp)
deriving DecidableEq

/-- The value of an already-loaded relationship attribute on an instance. -/
inductive RelVal (E : Type) where
  /-- a loaded to-many collection -/
  | toMany (es : List E)
  /-- a loaded to-one value (possibly null) -/
  | toOne (e : Option E)

/-- A mapped instance: its class name, its column values, and its
    already-loaded relationship attributes. -/
inductive Entity where
  | mk (cls : String) (cols : List (ColName × Val))
       (rels : List (String × RelVal Entity))

def Entity.cls : Entity → String
  | .mk c _ _ => c

def Entity.cols : Entity → List (ColName × Val)
  | .mk _ cs _ => cs

def Entity.rels : Entity → List (String × RelVal Entity)
  | .mk _ _ rs => rs

/-- Look a column up in a named-value list; a missing column reads as NULL. -/
def lookupVal (l : List (ColName × Val)) (c : ColName) : Val :=
  match l.find? (fun p => p.1 == c) with
  | some p => p.2
  | none => none

/-- `getattr(instance, column_name)` for a column attribute. -/
def Entity.get (e : Entity) (c : ColName) : Val := lookupVal e.cols c

/-- `getattr(instance, rel_name)` for an already-loaded relationship. -/
def Entity.getRel (e : Entity) (a : String) : Option (RelVal Entity) :=
  (e.rels.find? (fun p => p.1 == a)).map (fun p => p.2)

def AssocRow.get (a : AssocRow) (c : ColName) : Val := lookupVal a c

/-- A mapped class: its name, its class-level attributes (columns and
    relationships) and its table of rows, plus its primary key column. -/
structure Model where
  name : String
  pk : ColName
  attrs : List (String × AttrProp)
  table : List Entity

/-- The database / session: the set of mapped classes with their rows. -/
structure DB where
  models : List Model

def DB.findModel (db : DB) (n : String) : Option Model :=
  db.models.find? (fun m => m.name == n)

/-- `session.query(Model)` with no filter: the model's rows. -/
def DB.table (db : DB) (n : String) : List Entity :=
  ((db.findModel n).map Model.table).getD []

/-- `getattr(cls, name)`: resolve a class-level attribute. -/
def DB.classAttr (db : DB) (cls : String) (name : String) : Option AttrProp :=
  (db.findModel cls).bind (fun m => (m.attrs.find? (fun p => p.1 == name)).map (fun p => p.2))

/-- `session.query(Model).get(pk_value)`: primary-key lookup (identity-map /
    single-row fetch). `get(None)` yields no entity. -/
def DB.getByPk (db : DB) (cls : String) (v : Val) : Option Entity :=
  match db.findModel cls, v with
  | some m, some _ => m.table.find? (fun e => e.get m.pk == v)
  | _, _ => none

/-- Python `s.split('.')` (always at least one segment). -/
def splitDotAux : List Char → List Char → List String
  | [], acc => [String.mk acc.reverse]
  | c :: rest, acc =>
    if c = '.' then String.mk acc.reverse :: splitDotAux rest []
    else splitDotAux rest (c :: acc)

def splitDot (s : String) : List String := splitDotAux s.data []

/-- `str` or `InstrumentedAttribute` argument of `Path.parse`. -/
inductive PathSpec where
  | str (s : String)
  | attr (p : AttrProp)

/-- `Path`: a relationship property bound to the source entities. -/
structure Path where
  property : RelProp
  entities : List Entity
  populate_backrefs : Bool

/-- `Path.__init__`: store the fields, raising when the attribute's property
    is not a `RelationshipProperty`. -/
def Path.init (entities : List Entity) (prop : AttrProp) (pb : Bool) :
    Except Err Path :=
  match prop with
  | .rel p => .ok ⟨p, entities, pb⟩
  | .column _ => .error .notARelationship

/-- The flattening loop of `Path.parse` for a dotted path:
    `related_entities.extend(getattr(entity, attrs[0]))` over all entities.
    `extend` of a loaded to-one value (a bare instance or `None`) raises
    `TypeError`; `getattr` of a missing attribute raises `AttributeError`. -/
def flattenHop (entities : List Entity) (a : String) :
    Except Err (List Entity) :=
  match entities with
  | [] => .ok []
  | e :: rest => do
    let here ←
      match e.getRel a with
      | some (.toMany es) => Except.ok es
      | some (.toOne _) => Except.error Err.typeError
      | none => Except.error Err.attributeError
    let there ← flattenHop rest a
    .ok (here ++ there)

/-- `Path.parse` after splitting the string path into its segments.  A dotted
    path flattens the first hop across all entities and recurses on the rest
    (the source joins the tail with `'.'` and re-splits, which is the same);
    a single segment resolves `getattr(entities[0].__class__, segment)` —
    `entities[0]` raises `IndexError` on an empty list. -/
def Path.parseAttrs (db : DB) (entities : List Entity) (attrs : List String)
    (pb : Bool) : Except Err Path :=
  match attrs with
  | [] => .error .unknownPathType
  | [a] => do
    let e0 ←
      match entities with
      | [] => Except.error Err.indexError
      | e :: _ => Except.ok e
    let attr ←
      match db.classAttr e0.cls a with
      | some attr => Except.ok attr
      | none => Except.error Err.attributeError
    Path.init entities attr pb
  | a :: rest => do
    let related ← flattenHop entities a
    Path.parseAttrs db related rest pb

/-- `Path.parse`: a string path is split on dots; an `InstrumentedAttribute`
    argument carries its `attr.property` directly. -/
def Path.parse (db : DB) (entities : List Entity) (path : PathSpec)
    (pb : Bool) : Except Err Path :=
  match path with
  | .str s => Path.parseAttrs db entities (splitDot s) pb
  | .attr a => Path.init entities a pb

/-- The three fetch strategies (Python subclasses of `Fetcher`). -/
inductive FetcherKind where
  | oneToMany
  | manyToOne
  | manyToMany
deriving DecidableEq

/-- `Path.fetcher_class`: secondary table present ⇒ many-to-many; else
    direction name `'MANYTOONE'` ⇒ many-to-one; else one-to-many. -/
def Path.fetcher_class (p : Path) : FetcherKind :=
  if p.property.secondary.isSome then .manyToMany
  else if p.property.direction.name == "MANYTOONE" then .manyToOne
  else .oneToMany

/-- A fetcher: its variant and its `Path`.  The grouping dictionary is
    represented by the list of `(key, entity)` append events produced by
    `fetch`, in order. -/
structure Fetcher where
  kind : FetcherKind
  path : Path

/-- `self.prop`. -/
def Fetcher.prop (f : Fetcher) : RelProp := f.path.property

/-- `Path.__init__` builds `self.fetcher = self.fetcher_class(self)`. -/
def Fetcher.ofPath (p : Path) : Fetcher := ⟨p.fetcher_class, p⟩

/-- `Fetcher.local_values`: `getattr(entity, list(prop.local_columns)[0].name)`.
    (`local_columns` is non-empty for a well-formed relationship; `headI`
    stands for the `[0]` indexing.) -/
def Fetcher.local_values (f : Fetcher) (e : Entity) : Val :=
  e.get f.prop.local_columns.headI

/-- `Fetcher.local_values_list`. -/
def Fetcher.local_values_list (f : Fetcher) : List Val :=
  f.path.entities.map f.local_values

/-- `Fetcher.remote_column_name`, with the `ManyToManyFetcher` override: the
    association-table column whose foreign key targets the parent's table.
    `list(remote_side)[0]` on an empty list is an `IndexError`; the
    many-to-many scan falling through (Python returns `None`) makes every use
    site (`getattr` with a `None` name) raise `TypeError`, collapsed here to
    the resolution itself. -/
def Fetcher.remote_column_name (f : Fetcher) : Except Err ColName :=
  match f.kind with
  | .manyToMany =>
    match f.path.entities with
    | [] => .error .indexError
    | e0 :: _ =>
      match f.prop.remote_side.findSome? (fun c =>
          c.foreign_keys.findSome? (fun fk =>
            if fk.target_table == e0.cls then some fk.parent_name else none)) with
      | some n => .ok n
      | none => .error .typeError
  | _ =>
    match f.prop.remote_side with
    | [] => .error .indexError
    | c :: _ => .ok c.name

/-- SQL evaluation of `column.in_(values)`: a NULL column value satisfies no
    `IN` predicate, and NULL list members never compare equal. -/
def sqlIn (v : Val) (vs : List Val) : Bool :=
  match v with
  | none => false
  | some x => vs.contains (some x)

/-- `Fetcher.condition`:
    `getattr(self.path.model, self.remote_column_name).in_(self.local_values_list)`.
    The class-level `getattr` raises `AttributeError` when the related class
    does not expose the column. -/
def Fetcher.condition (f : Fetcher) (db : DB) : Except Err (Entity → Bool) := do
  let rcol ← f.remote_column_name
  match db.classAttr f.prop.mapper_class rcol with
  | some _ => .ok (fun row => sqlIn (row.get rcol) f.local_values_list)
  | none => .error .attributeError

/-- `Fetcher.related_entities` (the base property):
    `session.query(self.path.model).filter(self.condition)`. -/
def Fetcher.related_entities (f : Fetcher) (db : DB) : Except Err (List Entity) := do
  let cond ← f.condition db
  .ok ((db.table f.prop.mapper_class).filter cond)

/-- `prop.secondaryjoin` evaluated on an association row and a related row
    (SQL equality: NULL joins nothing). -/
def joinMatch (j : SecJoin) (a : AssocRow) (e : Entity) : Bool :=
  match a.get j.secCol, e.get j.relCol with
  | some x, some y => x == y
  | _, _ => false

/-- The join of the related table with the association table used by
    `ManyToManyFetcher.related_entities`, in related-table-major order:
    pairs `(related_row, secondary.c[remote_column])`, restricted to
    association rows whose parent-side key is in the local key set. -/
def m2mJoin (table : List Entity) (rows : List AssocRow) (j : SecJoin)
    (rcol : ColName) (locals : List Val) : List (Entity × Val) :=
  match table with
  | [] => []
  | e :: rest =>
    ((rows.filter (fun a => joinMatch j a e && sqlIn (a.get rcol) locals)).map
      (fun a => (e, a.get rcol))) ++ m2mJoin rest rows j rcol locals

/-- `ManyToManyFetcher.related_entities`. -/
def Fetcher.m2m_related_entities (f : Fetcher) (db : DB) :
    Except Err (List (Entity × Val)) := do
  let rcol ← f.remote_column_name
  match f.prop.secondary with
  | none => .error .attributeError
  | some sec =>
    .ok (m2mJoin (db.table f.prop.mapper_class) sec.rows f.prop.secondaryjoin
          rcol f.local_values_list)

/-- `fetch`, returning the queries issued and the `(key, entity)` append
    events: the base `fetch` appends each related row keyed by its remote
    column value (`append_entity`); `ManyToManyFetcher.fetch` appends each
    joined row keyed by the association row's parent-side value. -/
def Fetcher.fetch (f : Fetcher) (db : DB) :
    List String × Except Err (List (Val × Entity)) :=
  match f.kind with
  | .manyToMany =>
    match f.m2m_related_entities db with
    | .error er => ([], .error er)
    | .ok prs => ([f.prop.mapper_class], .ok (prs.map (fun p => (p.2, p.1))))
  | _ =>
    match f.related_entities db with
    | .error er => ([], .error er)
    | .ok rows =>
      match f.remote_column_name with
      | .error er => ([f.prop.mapper_class], .error er)
      | .ok rcol => ([f.prop.mapper_class], .ok (rows.map (fun e => (e.get rcol, e))))

/-- A value written by `set_committed_value`. -/
inductive AttrVal where
  /-- the list assigned to a to-many attribute -/
  | many (es : List Entity)
  /-- the scalar assigned to a to-one attribute -/
  | one (e : Option Entity)
  /-- a backref list: `query(parent_model).get(...)` results -/
  | parents (es : List (Option Entity))

/-- One `set_committed_value(target, attr, value)` call.  `attr` is the raw
    key passed; `prop.back_populates` may be `None`. -/
structure Assign where
  target : Entity
  attr : Option String
  value : AttrVal

/-- Reading the grouping dictionary at a key: `defaultdict(list)` for the
    to-many fetchers (appends in event order), `defaultdict(lambda: None)`
    with overwriting appends for `ManyToOneFetcher` (last event wins). -/
def dictLookup (kind : FetcherKind) (events : List (Val × Entity)) (k : Val) :
    AttrVal :=
  match kind with
  | .manyToOne => .one (((events.filter (fun p => p.1 == k)).map (fun p => p.2)).getLast?)
  | _ => .many ((events.filter (fun p => p.1 == k)).map (fun p => p.2))

/-- The forward loop of `Fetcher.populate`: for every entity of the path,
    `set_committed_value(entity, prop.key, parent_dict[local_values(entity)])`. -/
def Fetcher.populateForward (f : Fetcher) (events : List (Val × Entity)) :
    List Assign :=
  f.path.entities.map (fun e =>
    { target := e
      attr := some f.prop.key
      value := dictLookup f.kind events (f.local_values e) })

/-- `query(parent_model).get(parent_id)` inside `populate_backrefs`; the
    parent model is `path.entities[0].__class__`. -/
def getParent (db : DB) (f : Fetcher) (pid : Val) : Option Entity :=
  match f.path.entities with
  | [] => none
  | e0 :: _ => db.getByPk e0.cls pid

/-- `Fetcher.populate_backrefs` given the `(entity, parent_id)` pairs: the
    dict groups `get` results per child local key, then one
    `set_committed_value(entity, prop.back_populates, ...)` per pair. -/
def Fetcher.populate_backrefs (f : Fetcher) (db : DB)
    (prs : List (Entity × Val)) : List Assign :=
  prs.map (fun pr =>
    { target := pr.1
      attr := f.prop.back_populates
      value := .parents ((prs.filter (fun q =>
          f.local_values q.1 == f.local_values pr.1)).map
            (fun q => getParent db f q.2)) })

/-- The argument `self.related_entities` of the `populate_backrefs` call,
    unpacked as `(entity, parent_id)` tuples.  Only the many-to-many query
    yields tuples; the base query yields bare instances, so unpacking the
    first row raises `TypeError` (the query itself has already run). -/
def Fetcher.backref_input (f : Fetcher) (db : DB) :
    List String × Except Err (List (Entity × Val)) :=
  match f.kind with
  | .manyToMany =>
    match f.m2m_related_entities db with
    | .error er => ([], .error er)
    | .ok prs => ([f.prop.mapper_class], .ok prs)
  | _ =>
    match f.related_entities db with
    | .error er => ([], .error er)
    | .ok [] => ([f.prop.mapper_class], .ok [])
    | .ok (_ :: _) => ([f.prop.mapper_class], .error .typeError)

/-- `Fetcher.populate`: the forward assignments, then (when requested on the
    path) backref population.  Returns the `set_committed_value` calls
    performed, the queries issued, and the error that interrupted it, if
    any — forward assignments precede a backref failure. -/
def Fetcher.populate (f : Fetcher) (db : DB) (events : List (Val × Entity)) :
    List Assign × List String × Option Err :=
  let fwd := f.populateForward events
  if f.path.populate_backrefs then
    match f.backref_input db with
    | (qs, .error er) => (fwd, qs, some er)
    | (qs, .ok prs) =>
      (fwd ++ f.populate_backrefs db prs, qs ++ prs.map (fun _ => "get"), none)
  else (fwd, [], none)

/-- `CompositeFetcher`: a fixed list of sibling fetchers. -/
structure CompositeFetcher where
  fetchers : List Fetcher

/-- `CompositeFetcher.__init__`: every sibling's `path.model` must equal the
    first one's.  (With an empty argument list the generator never evaluates
    `fetchers[0]`, so construction succeeds vacuously.) -/
def CompositeFetcher.init (fs : List Fetcher) : Except Err CompositeFetcher :=
  match fs with
  | [] => .ok ⟨[]⟩
  | f0 :: _ =>
    if fs.all (fun f => f.prop.mapper_class == f0.prop.mapper_class)
    then .ok ⟨fs⟩ else .error .incompatibleFetcher

/-- `CompositeFetcher.condition`: `sa.or_` of every sibling's condition. -/
def CompositeFetcher.condition (c : CompositeFetcher) (db : DB) :
    Except Err (Entity → Bool) := do
  let conds ← c.fetchers.mapM (fun f => f.condition db)
  .ok (fun e => conds.any (fun cond => cond e))

/-- Pair list elements with their position. -/
def enumFrom (n : Nat) : List α → List (Nat × α)
  | [] => []
  | a :: l => (n, a) :: enumFrom (n + 1) l

/-- The inner loop of `CompositeFetcher.fetch` for one returned row: each
    sibling whose remote column is non-null on the row receives the row via
    its `append_entity`.  `ManyToManyFetcher` defines no `append_entity`
    (`AttributeError`).  Events are tagged with the sibling's position. -/
def appendRowEvents (fs : List (Nat × Fetcher)) (row : Entity) :
    Except Err (List (Nat × Val × Entity)) :=
  match fs with
  | [] => .ok []
  | (i, f) :: rest => do
    let rcol ← f.remote_column_name
    let here ←
      if (row.get rcol).isSome then
        match f.kind with
        | .manyToMany => Except.error Err.attributeError
        | _ => Except.ok [(i, row.get rcol, row)]
      else Except.ok []
    let there ← appendRowEvents rest row
    .ok (here ++ there)

/-- The outer loop of `CompositeFetcher.fetch` over the returned rows. -/
def appendAllEvents (fs : List (Nat × Fetcher)) :
    List Entity → Except Err (List (Nat × Val × Entity))
  | [] => .ok []
  | row :: rows => do
    let h ← appendRowEvents fs row
    let t ← appendAllEvents fs rows
    .ok (h ++ t)

/-- `CompositeFetcher.fetch`: one query over the OR of the siblings'
    conditions (`self.model` reads `fetchers[0]`), then row redistribution. -/
def CompositeFetcher.fetch (c : CompositeFetcher) (db : DB) :
    List String × Except Err (List (Nat × Val × Entity)) :=
  match c.fetchers with
  | [] => ([], .error .indexError)
  | f0 :: _ =>
    match c.condition db with
    | .error er => ([], .error er)
    | .ok cond =>
      ([f0.prop.mapper_class],
       appendAllEvents (enumFrom 0 c.fetchers)
         ((db.table f0.prop.mapper_class).filter cond))

/-- The events accumulated into the sibling at position `i` (its
    `parent_dict`), in arrival order. -/
def eventsFor (i : Nat) (evs : List (Nat × Val × Entity)) :
    List (Val × Entity) :=
  (evs.filter (fun t => t.1 == i)).map (fun t => t.2)

/-- `for fetcher in self.fetchers: fetcher.populate()`, sequentially; an
    exception stops the remaining siblings. -/
def runPopulates (db : DB) :
    List (Fetcher × List (Val × Entity)) → List Assign × List String × Option Err
  | [] => ([], [], none)
  | (f, ev) :: rest =>
    match f.populate db ev with
    | (a, q, some er) => (a, q, some er)
    | (a, q, none) =>
      let (a2, q2, e2) := runPopulates db rest
      (a ++ a2, q ++ q2, e2)

/-- `CompositeFetcher.populate`. -/
def CompositeFetcher.populate (c : CompositeFetcher) (db : DB)
    (evs : List (Nat × Val × Entity)) :
    List Assign × List String × Option Err :=
  runPopulates db ((enumFrom 0 c.fetchers).map (fun p => (p.2, eventsFor p.1 evs)))

/-- The inner part of a path specifier after unwrapping `with_backrefs`:
    a single path or a `CompositePath`. -/
inductive SpecInner where
  | single (p : PathSpec)
  | composite (ps : List PathSpec)

/-- One argument of `batch_fetch`: optionally wrapped in `with_backrefs`. -/
structure Spec where
  backrefs : Bool
  inner : SpecInner

/-- Parse all sub-paths of a `CompositePath` into their fetchers. -/
def parseAll (db : DB) (entities : List Entity) (pb : Bool) :
    List PathSpec → Except Err (List Fetcher)
  | [] => .ok []
  | p :: ps => do
    let path ← Path.parse db entities p pb
    let rest ← parseAll db entities pb ps
    .ok (Fetcher.ofPath path :: rest)

/-- `FetchingCoordinator.__call__`: unwrap the backref marker, build the
    fetcher (or composite), `fetch()` then `populate()`. -/
def FetchingCoordinator (db : DB) (entities : List Entity) (spec : Spec) :
    List Assign × List String × Option Err :=
  match spec.inner with
  | .single p =>
    match Path.parse db entities p spec.backrefs with
    | .error er => ([], [], some er)
    | .ok path =>
      let f := Fetcher.ofPath path
      match f.fetch db with
      | (qs, .error er) => ([], qs, some er)
      | (qs, .ok evs) =>
        let (a, q2, er) := f.populate db evs
        (a, qs ++ q2, er)
  | .composite ps =>
    match parseAll db entities spec.backrefs ps with
    | .error er => ([], [], some er)
    | .ok fs =>
      match CompositeFetcher.init fs with
      | .error er => ([], [], some er)
      | .ok c =>
        match c.fetch db with
        | (qs, .error er) => ([], qs, some er)
        | (qs, .ok evs) =>
          let (a, q2, er) := c.populate db evs
          (a, qs ++ q2, er)

/-- The specifiers are processed independently, in order; an exception in one
    aborts the call, keeping the effects already applied. -/
def runSpecs (db : DB) (entities : List Entity) :
    List Spec → List Assign × List String × Option Err
  | [] => ([], [], none)
  | s :: rest =>
    match FetchingCoordinator db entities s with
    | (a, q, some er) => (a, q, some er)
    | (a, q, none) =>
      let (a2, q2, e2) := runSpecs db entities rest
      (a ++ a2, q ++ q2, e2)

/-- `batch_fetch`: nothing at all happens when `entities` is empty. -/
def batch_fetch (db : DB) (entities : List Entity) (attr_paths : List Spec) :
    List Assign × List String × Option Err :=
  if entities.isEmpty then ([], [], none)
  else runSpecs db entities attr_paths

/-! ### Concrete fixtures

A small schema exercising every strategy: `Club`-(one-to-many)→`Team`,
`Team`-(many-to-one)→`Club`, `Club`-(many-to-one)→`Team` (`best_team`),
`User`-(many-to-many)→`Group` through `user_groups(user_id, group_id)`,
and a broken many-to-many `Club`→`Team` whose parent-side association
column is not an attribute of `Team`. -/

def teamsProp : RelProp :=
  { key := "teams", mapper_class := "Team", direction := .ONETOMANY
    secondary := none, secondaryjoin := ⟨"", ""⟩
    local_columns := ["id"], remote_side := [⟨"club_id", []⟩]
    back_populates := some "club" }

def clubProp : RelProp :=
  { key := "club", mapper_class := "Club", direction := .MANYTOONE
    secondary := none, secondaryjoin := ⟨"", ""⟩
    local_columns := ["club_id"], remote_side := [⟨"id", []⟩]
    back_populates := some "teams" }

def bestTeamProp : RelProp :=
  { key := "best_team", mapper_class := "Team", direction := .MANYTOONE
    secondary := none, secondaryjoin := ⟨"", ""⟩
    local_columns := ["best_team_id"], remote_side := [⟨"id", []⟩]
    back_populates := none }

def groupsSecondary : Secondary :=
  ⟨[[("user_id", some 1), ("group_id", some 10)],
    [("user_id", some 1), ("group_id", some 10)],
    [("user_id", some 2), ("group_id", some 10)]]⟩

def groupsProp : RelProp :=
  { key := "groups", mapper_class := "Group", direction := .MANYTOMANY
    secondary := some groupsSecondary
    secondaryjoin := ⟨"group_id", "id"⟩
    local_columns := ["id"]
    remote_side := [⟨"user_id", [⟨"User", "user_id"⟩]⟩,
                    ⟨"group_id", [⟨"Group", "group_id"⟩]⟩]
    back_populates := some "users" }

def m2mTeamsSecondary : Secondary :=
  ⟨[[("club_ref", some 1), ("team_ref", some 10)]]⟩

def m2mTeamsProp : RelProp :=
  { key := "m2m_teams", mapper_class := "Team", direction := .MANYTOMANY
    secondary := some m2mTeamsSecondary
    secondaryjoin := ⟨"team_ref", "id"⟩
    local_columns := ["id"]
    remote_side := [⟨"club_ref", [⟨"Club", "club_ref"⟩]⟩,
                    ⟨"team_ref", [⟨"Team", "team_ref"⟩]⟩]
    back_populates := none }

def club1 : Entity := .mk "Club" [("id", some 1), ("best_team_id", some 11)] []
def club2 : Entity := .mk "Club" [("id", some 2), ("best_team_id", some 12)] []
def team1 : Entity := .mk "Team" [("id", some 10), ("club_id", some 1)] []
def team2 : Entity := .mk "Team" [("id", some 11), ("club_id", some 1)] []
def team3 : Entity := .mk "Team" [("id", some 12), ("club_id", some 2)] []
def user1 : Entity := .mk "User" [("id", some 1)] []
def user2 : Entity := .mk "User" [("id", some 2)] []
def group10 : Entity := .mk "Group" [("id", some 10)] []

def clubModel : Model :=
  { name := "Club", pk := "id"
    attrs := [("id", .column "id"), ("best_team_id", .column "best_team_id"),
              ("teams", .rel teamsProp), ("best_team", .rel bestTeamProp),
              ("m2m_teams", .rel m2mTeamsProp)]
    table := [club1, club2] }

def teamModel : Model :=
  { name := "Team", pk := "id"
    attrs := [("id", .column "id"), ("club_id", .column "club_id"),
              ("club", .rel clubProp)]
    table := [team1, team2, team3] }

def userModel : Model :=
  { name := "User", pk := "id"
    attrs := [("id", .column "id"), ("groups", .rel groupsProp)]
    table := [user1, user2] }

def groupModel : Model :=
  { name := "Group", pk := "id"
    attrs := [("id", .column "id")]
    table := [group10] }

def db0 : DB := ⟨[clubModel, teamModel, userModel, groupModel]⟩

/-- `club1` with its `teams` collection already loaded. -/
def club1L : Entity :=
  .mk "Club" [("id", some 1)] [("teams", .toMany [team1, team2])]

/-- a club whose loaded `teams` collection is empty. -/
def club3L : Entity := .mk "Club" [("id", some 3)] [("teams", .toMany [])]

/-- a club whose loaded `best_team` is a null to-one value. -/
def club4L : Entity := .mk "Club" [("id", some 4)] [("best_team", .toOne none)]

/-- a club with both a loaded `best_team` list-like sibling and `teams`. -/
def club5L : Entity :=
  .mk "Club" [("id", some 5)] [("best_team", .toMany [team3])]

/-- a second club with its `teams` collection already loaded. -/
def club5LT : Entity :=
  .mk "Club" [("id", some 5)] [("teams", .toMany [team3])]

/-- the one-to-many fetcher for `Club.teams` over both clubs. -/
def fTeams : Fetcher := Fetcher.ofPath ⟨teamsProp, [club1, club2], false⟩

/-- the many-to-one fetcher for `Team.club` over two teams. -/
def fClub : Fetcher := Fetcher.ofPath ⟨clubProp, [team1, team3], false⟩

/-- the many-to-many fetcher for `User.groups` over both users. -/
def fGroups : Fetcher := Fetcher.ofPath ⟨groupsProp, [user1, user2], false⟩

/-- `User.groups` with backref population requested. -/
def fGroupsBR : Fetcher := Fetcher.ofPath ⟨groupsProp, [user1, user2], true⟩

/-- `Club.teams` with backref population requested. -/
def fTeamsBR : Fetcher := Fetcher.ofPath ⟨teamsProp, [club1, club2], true⟩

/-- the many-to-one fetcher for `Club.best_team` over both clubs. -/
def fBest : Fetcher := Fetcher.ofPath ⟨bestTeamProp, [club1, club2], false⟩

/-! ### Helper lemmas -/

/-- The loaded children of an entity along a to-many relationship attribute
    (empty when the attribute is missing or to-one). -/
def relChildren (a : String) (e : Entity) : List Entity :=
  match e.getRel a with
  | some (.toMany es) => es
  | _ => []

theorem flattenHop_toMany (a : String) :
    ∀ entities : List Entity,
      (∀ e ∈ entities, ∃ es, e.getRel a = some (.toMany es)) →
      flattenHop entities a = .ok (entities.flatMap (relChildren a))
  | [], _ => rfl
  | e :: rest, h => by
    obtain ⟨es, hes⟩ := h e (List.mem_cons_self e rest)
    have ih := flattenHop_toMany a rest (fun x hx => h x (List.mem_cons_of_mem e hx))
    simp only [flattenHop, hes, ih, List.flatMap_cons, relChildren]
    rfl

theorem parseAttrs_nil_entities (db : DB) (pb : Bool) :
    ∀ attrs : List String, attrs ≠ [] →
      Path.parseAttrs db [] attrs pb = .error .indexError
  | [], h => absurd rfl h
  | [_], _ => rfl
  | a :: b :: rest, _ => by
    have ih := parseAttrs_nil_entities db pb (b :: rest) (by simp)
    simp only [Path.parseAttrs, flattenHop]
    exact ih

/-! ### C9 -/

/-- C9: `batch_fetch` with an empty entity collection issues zero queries,
    performs no assignment, raises no error and returns immediately, for any
    path specifiers whatsoever (malformed ones included). -/
theorem c9_empty_entities_noop (db : DB) (specs : List Spec) :
    batch_fetch db [] specs = ([], [], none) := rfl

/-! ### C7 -/

/-- C7: the fetcher variant is selected by exactly this rule: a secondary
    table forces the many-to-many fetcher; otherwise direction `MANYTOONE`
    forces the many-to-one fetcher; otherwise the one-to-many fetcher — and
    no other signal (entities, backref flag) is consulted. -/
theorem c7_fetcher_class_rule (prop : RelProp) (entities : List Entity) (pb : Bool) :
    (prop.secondary.isSome = true →
      Path.fetcher_class ⟨prop, entities, pb⟩ = .manyToMany)
    ∧ (prop.secondary = none → prop.direction = .MANYTOONE →
        Path.fetcher_class ⟨prop, entities, pb⟩ = .manyToOne)
    ∧ (prop.secondary = none → prop.direction ≠ .MANYTOONE →
        Path.fetcher_class ⟨prop, entities, pb⟩ = .oneToMany)
    ∧ (∀ (entities2 : List Entity) (pb2 : Bool),
        Path.fetcher_class ⟨prop, entities, pb⟩ =
          Path.fetcher_class ⟨prop, entities2, pb2⟩) := by
  refine ⟨fun h => ?_, fun h hd => ?_, fun h hd => ?_, fun e2 p2 => rfl⟩
  · simp [Path.fetcher_class, h]
  · simp [Path.fetcher_class, h, hd, Direction.name]
  · cases hdir : prop.direction with
    | MANYTOONE => exact absurd hdir hd
    | ONETOMANY => simp [Path.fetcher_class, h, hdir, Direction.name]
    | MANYTOMANY => simp [Path.fetcher_class, h, hdir, Direction.name]

/-- Witness for C7 at a concrete relationship property. -/
theorem c7_fetcher_class_rule_witness :
    clubProp.secondary = none ∧ clubProp.direction = .MANYTOONE ∧
      Path.fetcher_class ⟨clubProp, [team1], false⟩ = .manyToOne :=
  ⟨rfl, rfl, (c7_fetcher_class_rule clubProp [team1] false).2.1 rfl rfl⟩

/-! ### C5 -/

/-- C5: a `batch_fetch` call (on a non-empty entity collection, the case the
    empty-input no-op contract does not already govern) with a single path
    specifier naming a plain scalar column — by name or as an attribute
    handle — fails with the not-a-relationship error before any query,
    assignment or backref population happens. -/
theorem c5_scalar_column_raises (db : DB) (e0 : Entity) (rest : List Entity)
    (br : Bool) (p : PathSpec) (c : ColName)
    (hp : (∃ s, p = .str s ∧ splitDot s = [s] ∧
            db.classAttr e0.cls s = some (.column c)) ∨
          p = .attr (.column c)) :
    batch_fetch db (e0 :: rest) [⟨br, .single p⟩] =
      ([], [], some .notARelationship) := by
  have hparse : Path.parse db (e0 :: rest) p br = .error .notARelationship := by
    rcases hp with ⟨s, rfl, hsplit, hattr⟩ | rfl
    · simp only [Path.parse, hsplit, Path.parseAttrs, bind, Except.bind, hattr,
        Path.init]
    · rfl
  simp only [batch_fetch, List.isEmpty_cons, Bool.false_eq_true, if_false,
    runSpecs, FetchingCoordinator, hparse]

/-- Witness for C5: requesting the scalar column `"id"` of a club. -/
theorem c5_scalar_column_raises_witness :
    db0.classAttr club1.cls "id" = some (.column "id") ∧
      batch_fetch db0 [club1] [⟨false, .single (.str "id")⟩] =
        ([], [], some .notARelationship) :=
  ⟨rfl, c5_scalar_column_raises db0 club1 [] false (.str "id") "id"
    (Or.inl ⟨"id", rfl, rfl, rfl⟩)⟩

/-! ### C10 -/

/-- C10: a dotted path whose first hop flattens to an empty related-entity
    set makes `Path.parse` — and hence `batch_fetch` on a non-empty root
    collection — fail with an `IndexError` (reading element 0 of the empty
    list) instead of treating the deeper hop as a no-op. -/
theorem c10_empty_intermediate_hop_raises (db : DB) (entities : List Entity)
    (s a b : String) (rest : List String) (pb : Bool)
    (hs : splitDot s = a :: b :: rest)
    (hflat : flattenHop entities a = .ok []) :
    Path.parse db entities (.str s) pb = .error .indexError
    ∧ (entities ≠ [] →
        batch_fetch db entities [⟨pb, .single (.str s)⟩] =
          ([], [], some .indexError)) := by
  have hparse : Path.parse db entities (.str s) pb = .error .indexError := by
    simp only [Path.parse, hs, Path.parseAttrs, hflat]
    exact parseAttrs_nil_entities db pb (b :: rest) (by simp)
  refine ⟨hparse, fun hne => ?_⟩
  have : entities.isEmpty = false := by
    cases entities with
    | nil => exact absurd rfl hne
    | cons x xs => rfl
  simp only [batch_fetch, this, Bool.false_eq_true, if_false, runSpecs,
    FetchingCoordinator, hparse]

/-- Witness for C10: a club whose loaded `teams` collection is empty. -/
theorem c10_empty_intermediate_hop_raises_witness :
    splitDot "teams.club" = ["teams", "club"] ∧
    flattenHop [club3L] "teams" = .ok [] ∧
    batch_fetch db0 [club3L] [⟨false, .single (.str "teams.club")⟩] =
      ([], [], some .indexError) :=
  ⟨rfl, rfl,
    (c10_empty_intermediate_hop_raises db0 [club3L] "teams.club" "teams" "club"
      [] false rfl rfl).2 (by simp)⟩

/-! ### C2 -/

/-- Modelled from the spec's words, for comparison with the source's
    flattening: "collect all related entities reachable via the already
    loaded attribute across all root entities (flattening lists and skipping
    null-to-one)" — a loaded to-one entity contributes itself. -/
def specFlatten (entities : List Entity) (a : String) : List Entity :=
  entities.flatMap (fun e =>
    match e.getRel a with
    | some (.toMany es) => es
    | some (.toOne (some x)) => [x]
    | some (.toOne none) => []
    | none => [])

/-- C2 counterexample: with a root whose loaded `best_team` is a null to-one
    value, `Path.parse` raises a `TypeError` (Python `list.extend(None)`)
    instead of skipping the null and resolving the next hop against the
    flattened union, as the claim states. -/
theorem c2_union_flattening_counterexample :
    Path.parse db0 [club5L, club4L] (.str "best_team.club") false =
      .error .typeError
    ∧ Path.parse db0 (specFlatten [club5L, club4L] "best_team") (.str "club")
        false = .ok ⟨clubProp, [team3], false⟩
    ∧ Path.parse db0 [club5L, club4L] (.str "best_team.club") false ≠
        Path.parse db0 (specFlatten [club5L, club4L] "best_team") (.str "club")
          false := by
  refine ⟨rfl, rfl, fun h => ?_⟩
  rw [show Path.parse db0 [club5L, club4L] (.str "best_team.club") false =
        Except.error Err.typeError from rfl] at h
  exact Except.noConfusion (h.trans rfl)

/-- C2 amended: for a dotted path whose first hop is loaded as a *list* on
    every root entity, the next hop is resolved against the single flattened
    union of those lists across all roots (never per root); a loaded
    null-to-one value raises a `TypeError` rather than being skipped. -/
theorem c2_union_flattening (db : DB) (entities : List Entity)
    (s a b : String) (rest : List String) (pb : Bool)
    (hs : splitDot s = a :: b :: rest)
    (hload : ∀ e ∈ entities, ∃ es, e.getRel a = some (.toMany es)) :
    flattenHop entities a = .ok (entities.flatMap (relChildren a))
    ∧ Path.parse db entities (.str s) pb =
        Path.parseAttrs db (entities.flatMap (relChildren a)) (b :: rest) pb := by
  have hflat := flattenHop_toMany a entities hload
  refine ⟨hflat, ?_⟩
  simp only [Path.parse, hs, Path.parseAttrs, hflat, bind, Except.bind]

/-- Witness for C2 amended: two clubs with loaded team lists; `club` is
    resolved against the four teams at once. -/
theorem c2_union_flattening_witness :
    splitDot "teams.club" = ["teams", "club"]
    ∧ (∀ e ∈ [club1L, club5LT], ∃ es, e.getRel "teams" = some (.toMany es))
    ∧ Path.parse db0 [club1L, club5LT] (.str "teams.club") false =
        Path.parseAttrs db0 ([club1L, club5LT].flatMap (relChildren "teams"))
          ["club"] false := by
  refine ⟨rfl, ?_, ?_⟩
  · intro e he
    rcases List.mem_cons.mp he with rfl | he
    · exact ⟨[team1, team2], rfl⟩
    rcases List.mem_cons.mp he with rfl | he
    · exact ⟨[team3], rfl⟩
    · exact absurd he (List.not_mem_nil e)
  · exact (c2_union_flattening db0 [club1L, club5LT] "teams.club" "teams"
      "club" [] false rfl (fun e he => by
        rcases List.mem_cons.mp he with rfl | he
        · exact ⟨[team1, team2], rfl⟩
        rcases List.mem_cons.mp he with rfl | he
        · exact ⟨[team3], rfl⟩
        · exact absurd he (List.not_mem_nil e))).2

/-! ### C1 -/

/-- The base `condition` succeeds only as the `in_` predicate over the local
    key values. -/
theorem condition_spec (db : DB) (f : Fetcher) (rcol : ColName)
    (cond : Entity → Bool)
    (hr : f.remote_column_name = .ok rcol)
    (hc : f.condition db = .ok cond) :
    cond = fun row => sqlIn (row.get rcol) f.local_values_list := by
  unfold Fetcher.condition at hc
  rw [hr] at hc
  simp only [bind, Except.bind] at hc
  cases hca : db.classAttr f.prop.mapper_class rcol with
  | none => rw [hca] at hc; exact Except.noConfusion hc
  | some attr =>
    rw [hca] at hc
    exact (Except.ok.injEq _ _ ▸ hc).symm

/-- The base `fetch` of a simple fetcher: the filtered related rows, keyed
    by their remote column value. -/
theorem fetch_simple_spec (db : DB) (f : Fetcher) (rcol : ColName)
    (cond : Entity → Bool)
    (hk : f.kind ≠ .manyToMany)
    (hr : f.remote_column_name = .ok rcol)
    (hc : f.condition db = .ok cond) :
    f.fetch db =
      ([f.prop.mapper_class],
       .ok (((db.table f.prop.mapper_class).filter cond).map
        (fun r => (r.get rcol, r)))) := by
  cases hkind : f.kind with
  | manyToMany => exact absurd hkind hk
  | oneToMany =>
    simp only [Fetcher.fetch, hkind, Fetcher.related_entities, hc, hr,
      bind, Except.bind]
  | manyToOne =>
    simp only [Fetcher.fetch, hkind, Fetcher.related_entities, hc, hr,
      bind, Except.bind]

/-- C1: for a simple (non-many-to-many) fetcher, `condition()` is exactly
    the predicate "the remote join column value is a (non-null) member of
    the list of local key values read from the single local join column of
    every entity of the path", and `fetch()` accumulates exactly the rows
    satisfying it, keyed by each row's remote column value. -/
theorem c1_condition_and_fetch (db : DB) (f : Fetcher) (rcol : ColName)
    (cond : Entity → Bool)
    (hk : f.kind ≠ .manyToMany)
    (hr : f.remote_column_name = .ok rcol)
    (hc : f.condition db = .ok cond) :
    (∀ row, cond row = true ↔
      ((row.get rcol).isSome = true ∧ row.get rcol ∈ f.local_values_list))
    ∧ f.local_values_list =
        f.path.entities.map (fun e => e.get f.prop.local_columns.headI)
    ∧ (f.fetch db).2 =
        .ok (((db.table f.prop.mapper_class).filter cond).map
          (fun r => (r.get rcol, r))) := by
  have hcond := condition_spec db f rcol cond hr hc
  refine ⟨fun row => ?_, rfl, ?_⟩
  · rw [hcond]
    cases hv : row.get rcol with
    | none => simp [sqlIn, hv]
    | some x =>
      simp only [sqlIn, hv, Option.isSome_some, true_and]
      exact ⟨fun h => by simpa using List.elem_iff.mp h,
             fun h => by simpa using List.elem_iff.mpr h⟩
  · rw [fetch_simple_spec db f rcol cond hk hr hc]

/-- Witness for C1 on the `Club.teams` fetcher. -/
theorem c1_condition_and_fetch_witness :
    fTeams.kind ≠ .manyToMany
    ∧ (fTeams.fetch db0).2 =
        .ok (((db0.table fTeams.prop.mapper_class).filter
          (fun row => sqlIn (row.get "club_id") fTeams.local_values_list)).map
            (fun r => (r.get "club_id", r))) :=
  ⟨by decide,
   (c1_condition_and_fetch db0 fTeams "club_id"
      (fun row => sqlIn (row.get "club_id") fTeams.local_values_list)
      (by decide) rfl rfl).2.2⟩

/-! ### C3 -/

/-- C3: after `fetch()` and `populate()` on any fetcher, every entity of the
    path receives a `set_committed_value` assignment on the relationship key
    (nothing is left unfetched), and an entity whose local key matched no
    fetched row receives the empty collection (to-many) or null (to-one). -/
theorem c3_populate_totality (db : DB) (f : Fetcher) (qs : List String)
    (events : List (Val × Entity))
    (_hf : f.fetch db = (qs, .ok events)) :
    ∀ e ∈ f.path.entities,
      (Assign.mk e (some f.prop.key)
          (dictLookup f.kind events (f.local_values e)))
        ∈ (f.populate db events).1
      ∧ (events.filter (fun p => p.1 == f.local_values e) = [] →
          dictLookup f.kind events (f.local_values e) =
            if f.kind = .manyToOne then .one none else .many []) := by
  intro e he
  constructor
  · have hmem : (Assign.mk e (some f.prop.key)
        (dictLookup f.kind events (f.local_values e)))
          ∈ f.populateForward events :=
      List.mem_map_of_mem _ he
    unfold Fetcher.populate
    cases hpb : f.path.populate_backrefs with
    | false => simpa [hpb] using hmem
    | true =>
      rcases hbi : f.backref_input db with ⟨qs2, res⟩
      cases res with
      | error er => simpa [hpb, hbi] using hmem
      | ok prs =>
        simp only [hpb, hbi, if_true]
        exact List.mem_append_left _ hmem
  · intro hempty
    cases hkind : f.kind <;>
      simp [dictLookup, hkind, hempty]

/-- Witness for C3: `club1` receives its two teams; a key matching no row
    yields the empty list. -/
theorem c3_populate_totality_witness :
    fTeams.fetch db0 =
      (["Team"], .ok [(some 1, team1), (some 1, team2), (some 2, team3)])
    ∧ (Assign.mk club1 (some "teams") (.many [team1, team2]))
        ∈ (fTeams.populate db0
            [(some 1, team1), (some 1, team2), (some 2, team3)]).1 :=
  ⟨rfl,
   (c3_populate_totality db0 fTeams ["Team"]
      [(some 1, team1), (some 1, team2), (some 2, team3)] rfl club1
      (by show club1 ∈ [club1, club2]; simp)).1⟩

/-! ### C8 -/

/-- The slice of the many-to-many join attributable to the children whose
    join-column value is `v`, restricted to grouping key `k`: one occurrence
    of the child per qualifying association row. -/
theorem m2mJoin_group (j : SecJoin) (R : List AssocRow) (rcol : ColName)
    (L : List Val) (v : Val) (k : Val) :
    ∀ T : List Entity,
      ((m2mJoin T R j rcol L).filter
          (fun p => (p.2 == k) && (p.1.get j.relCol == v))).map (fun p => p.1)
      = (T.filter (fun x => x.get j.relCol == v)).flatMap (fun x =>
          (R.filter (fun a => joinMatch j a x && sqlIn (a.get rcol) L
            && (a.get rcol == k))).map (fun _ => x))
  | [] => rfl
  | e :: T => by
    have ih := m2mJoin_group j R rcol L v k T
    simp only [m2mJoin, List.filter_append, List.map_append, ih]
    rw [List.filter_map, List.map_map]
    cases hv : (e.get j.relCol == v) with
    | false =>
      have hseg : ((R.filter (fun a => joinMatch j a e && sqlIn (a.get rcol) L)).filter
          ((fun p => (p.2 == k) && (p.1.get j.relCol == v)) ∘
            (fun a => (e, a.get rcol)))) = [] := by
        apply List.eq_nil_iff_forall_not_mem.mpr
        intro a ha
        have := (List.mem_filter.mp ha).2
        simp [hv] at this
      simp [hseg, List.filter_cons, hv]
    | true =>
      have hcons : (e :: T).filter (fun x => x.get j.relCol == v) =
          e :: T.filter (fun x => x.get j.relCol == v) := by
        simp [List.filter_cons, hv]
      rw [hcons, List.flatMap_cons]
      congr 1
      rw [List.filter_filter]
      have hpred : ∀ a ∈ R,
          (((fun p => (p.2 == k) && (p.1.get j.relCol == v)) ∘
              (fun a => (e, a.get rcol))) a
            && (joinMatch j a e && sqlIn (a.get rcol) L))
          = (joinMatch j a e && sqlIn (a.get rcol) L && (a.get rcol == k)) := by
        intro a _
        simp only [Function.comp, hv, Bool.and_true]
        cases joinMatch j a e <;> cases sqlIn (a.get rcol) L <;>
          cases (a.get rcol == k) <;> rfl
      rw [List.filter_congr hpred]
      apply List.map_congr_left
      intro a _
      rfl

/-- Reading one group out of the swapped `(key, entity)` events and keeping
    the entities with join-column value `v` selects exactly the join pairs
    with that key and that child column value. -/
theorem group_of_swap (k v : Val) (c : ColName) :
    ∀ l : List (Entity × Val),
      (((l.map (fun p => (p.2, p.1))).filter (fun p => p.1 == k)).map
          (fun p => p.2)).filter (fun x => x.get c == v)
      = (l.filter (fun p => (p.2 == k) && (p.1.get c == v))).map (fun p => p.1)
  | [] => rfl
  | (e, w) :: l => by
    have ih := group_of_swap k v c l
    cases hw : (w == k) with
    | false => simpa [List.filter_cons, hw] using ih
    | true =>
      cases he : (e.get c == v) with
      | false => simpa [List.filter_cons, hw, he] using ih
      | true => simpa [List.filter_cons, hw, he] using congrArg (e :: ·) ih

/-- C8: in a many-to-many fetch, each related entity is appended to a
    parent's collection exactly once per matching association-table row
    (duplicate association rows give duplicate appends, none is deduped),
    grouped by the association row's parent-side key value: within the group
    of key `k`, the occurrences of a child `e` (identified by its join
    column, unique in the related table) are one copy per association row
    joining `e` with parent key `k` inside the local key set. -/
theorem c8_m2m_duplicates_per_assoc_row (db : DB) (f : Fetcher)
    (sec : Secondary) (rcol : ColName) (qs : List String)
    (events : List (Val × Entity)) (k : Val) (e : Entity)
    (hk : f.kind = .manyToMany)
    (hsec : f.prop.secondary = some sec)
    (hr : f.remote_column_name = .ok rcol)
    (hf : f.fetch db = (qs, .ok events))
    (huniq : (db.table f.prop.mapper_class).filter
        (fun x => x.get f.prop.secondaryjoin.relCol ==
          e.get f.prop.secondaryjoin.relCol) = [e]) :
    dictLookup f.kind events k =
      .many ((events.filter (fun p => p.1 == k)).map (fun p => p.2))
    ∧ ((events.filter (fun p => p.1 == k)).map (fun p => p.2)).filter
        (fun x => x.get f.prop.secondaryjoin.relCol ==
          e.get f.prop.secondaryjoin.relCol)
      = (sec.rows.filter (fun a => joinMatch f.prop.secondaryjoin a e
          && sqlIn (a.get rcol) f.local_values_list
          && (a.get rcol == k))).map (fun _ => e) := by
  have hev : events =
      (m2mJoin (db.table f.prop.mapper_class) sec.rows f.prop.secondaryjoin
        rcol f.local_values_list).map (fun p => (p.2, p.1)) := by
    unfold Fetcher.fetch at hf
    rw [hk] at hf
    unfold Fetcher.m2m_related_entities at hf
    rw [hr] at hf
    simp only [bind, Except.bind, hsec] at hf
    have := congrArg Prod.snd hf
    simp only at this
    exact (Except.ok.injEq _ _ ▸ this).symm
  constructor
  · rw [hk]; rfl
  · rw [hev, group_of_swap,
      m2mJoin_group f.prop.secondaryjoin sec.rows rcol f.local_values_list
        (e.get f.prop.secondaryjoin.relCol) k (db.table f.prop.mapper_class),
      huniq]
    simp

/-- Witness for C8: the duplicated `(user 1, group 10)` association rows
    yield `group10` twice in user 1's group. -/
theorem c8_m2m_duplicates_per_assoc_row_witness :
    fGroups.fetch db0 =
      (["Group"], .ok [(some 1, group10), (some 1, group10), (some 2, group10)])
    ∧ ((([(some 1, group10), (some 1, group10),
          (some 2, group10)].filter (fun p => p.1 == (some 1 : Val))).map
            (fun p => p.2)).filter
          (fun x => x.get fGroups.prop.secondaryjoin.relCol ==
            group10.get fGroups.prop.secondaryjoin.relCol))
      = (groupsSecondary.rows.filter (fun a =>
          joinMatch fGroups.prop.secondaryjoin a group10
          && sqlIn (a.get "user_id") fGroups.local_values_list
          && (a.get "user_id" == (some 1 : Val)))).map (fun _ => group10) :=
  ⟨rfl,
   (c8_m2m_duplicates_per_assoc_row db0 fGroups groupsSecondary "user_id"
      ["Group"]
      [(some 1, group10), (some 1, group10), (some 2, group10)]
      (some 1) group10 rfl rfl rfl rfl rfl).2⟩

/-! ### C6 -/

/-- When no child of `T` carries the local key value of `c`, no join pair
    does either. -/
theorem m2mJoin_filter_local_nil (j : SecJoin) (R : List AssocRow)
    (rcol : ColName) (L : List Val) (lc : ColName) (c : Entity) :
    ∀ T : List Entity,
      T.filter (fun x => x.get lc == c.get lc) = [] →
      (m2mJoin T R j rcol L).filter (fun q => q.1.get lc == c.get lc) = []
  | [], _ => rfl
  | e :: T, h => by
    cases hv : (e.get lc == c.get lc) with
    | true => simp [List.filter_cons, hv] at h
    | false =>
      have hT : T.filter (fun x => x.get lc == c.get lc) = [] := by
        simpa [List.filter_cons, hv] using h
      have ih := m2mJoin_filter_local_nil j R rcol L lc c T hT
      have hseg : ((R.filter (fun a => joinMatch j a e && sqlIn (a.get rcol) L)).map
          (fun a => (e, a.get rcol))).filter
            (fun q => q.1.get lc == c.get lc) = [] := by
        rw [List.filter_map]
        have : (R.filter (fun a => joinMatch j a e && sqlIn (a.get rcol) L)).filter
            ((fun q : Entity × Val => q.1.get lc == c.get lc) ∘
              (fun a => (e, a.get rcol))) = [] := by
          apply List.eq_nil_iff_forall_not_mem.mpr
          intro a ha
          have := (List.mem_filter.mp ha).2
          simp [hv] at this
        rw [this]; rfl
      simp only [m2mJoin, List.filter_append, hseg, ih, List.append_nil]

/-- When `c` is the unique child of `T` carrying its local key value, the
    join pairs carrying that value are exactly `c`'s own association rows. -/
theorem m2mJoin_filter_local (j : SecJoin) (R : List AssocRow)
    (rcol : ColName) (L : List Val) (lc : ColName) (c : Entity) :
    ∀ T : List Entity,
      T.filter (fun x => x.get lc == c.get lc) = [c] →
      (m2mJoin T R j rcol L).filter (fun q => q.1.get lc == c.get lc)
      = (R.filter (fun a => joinMatch j a c && sqlIn (a.get rcol) L)).map
          (fun a => (c, a.get rcol))
  | [], h => List.noConfusion h
  | e :: T, h => by
    cases hv : (e.get lc == c.get lc) with
    | false =>
      have hT : T.filter (fun x => x.get lc == c.get lc) = [c] := by
        simpa [List.filter_cons, hv] using h
      have ih := m2mJoin_filter_local j R rcol L lc c T hT
      have hseg : ((R.filter (fun a => joinMatch j a e && sqlIn (a.get rcol) L)).map
          (fun a => (e, a.get rcol))).filter
            (fun q => q.1.get lc == c.get lc) = [] := by
        rw [List.filter_map]
        have : (R.filter (fun a => joinMatch j a e && sqlIn (a.get rcol) L)).filter
            ((fun q : Entity × Val => q.1.get lc == c.get lc) ∘
              (fun a => (e, a.get rcol))) = [] := by
          apply List.eq_nil_iff_forall_not_mem.mpr
          intro a ha
          have := (List.mem_filter.mp ha).2
          simp [hv] at this
        rw [this]; rfl
      simp only [m2mJoin, List.filter_append, hseg, ih, List.nil_append]
    | true =>
      have hce : e = c ∧ T.filter (fun x => x.get lc == c.get lc) = [] := by
        have := h
        simp only [List.filter_cons, hv, if_true] at this
        exact ⟨(List.cons.injEq _ _ _ _ ▸ this).1,
               (List.cons.injEq _ _ _ _ ▸ this).2⟩
      obtain ⟨rfl, hT⟩ := hce
      have hrest := m2mJoin_filter_local_nil j R rcol L lc e T hT
      have hseg : ((R.filter (fun a => joinMatch j a e && sqlIn (a.get rcol) L)).map
          (fun a => (e, a.get rcol))).filter
            (fun q => q.1.get lc == e.get lc)
          = (R.filter (fun a => joinMatch j a e && sqlIn (a.get rcol) L)).map
              (fun a => (e, a.get rcol)) := by
        apply List.filter_eq_self.mpr
        intro q hq
        rcases List.mem_map.mp hq with ⟨a, _, rfl⟩
        exact hv
      simp only [m2mJoin, List.filter_append, hseg, hrest, List.append_nil]

/-- C6 counterexample: a one-to-many fetch (`Club.teams`, which declares the
    inverse `club`) with backref population requested raises a `TypeError`
    (the backref loop unpacks bare instances as tuples), and no fetched
    child's inverse attribute is assigned — only the forward `teams`
    assignments happen. -/
theorem c6_backrefs_counterexample :
    FetchingCoordinator db0 [club1, club2] ⟨true, .single (.str "teams")⟩ =
      ([Assign.mk club1 (some "teams") (.many [team1, team2]),
        Assign.mk club2 (some "teams") (.many [team3])],
       ["Team", "Team"], some .typeError)
    ∧ teamsProp.back_populates = some "club"
    ∧ ∀ a ∈ (FetchingCoordinator db0 [club1, club2]
          ⟨true, .single (.str "teams")⟩).1, a.attr = some "teams" := by
  refine ⟨rfl, rfl, fun a ha => ?_⟩
  rw [show (FetchingCoordinator db0 [club1, club2]
      ⟨true, .single (.str "teams")⟩).1 =
    [Assign.mk club1 (some "teams") (.many [team1, team2]),
     Assign.mk club2 (some "teams") (.many [team3])] from rfl] at ha
  rcases List.mem_cons.mp ha with rfl | ha
  · rfl
  rcases List.mem_cons.mp ha with rfl | ha
  · rfl
  · exact absurd ha (List.not_mem_nil a)

/-- C6 amended: backref population succeeds only through the many-to-many
    query (whose rows carry the parent key): there, every fetched child —
    uniquely identified among the related rows by its local key column —
    has its inverse attribute (named by `prop.back_populates`, a null
    attribute name when no inverse is declared, not a no-op) force-set to
    the `get`-by-primary-key parents of exactly its own qualifying
    association rows, one per row.  For a one-to-many fetch with at least
    one fetched row, `populate` instead raises a `TypeError` after the
    forward assignments, touching no child. -/
theorem c6_backref_population (db : DB) (f : Fetcher) :
    (∀ (sec : Secondary) (rcol : ColName) (qs : List String)
        (prs : List (Entity × Val)),
      f.kind = .manyToMany →
      f.path.populate_backrefs = true →
      f.prop.secondary = some sec →
      f.remote_column_name = .ok rcol →
      f.backref_input db = (qs, .ok prs) →
      ∀ (ev : List (Val × Entity)) (pr : Entity × Val), pr ∈ prs →
        (db.table f.prop.mapper_class).filter
            (fun x => x.get f.prop.local_columns.headI ==
              pr.1.get f.prop.local_columns.headI) = [pr.1] →
        Assign.mk pr.1 f.prop.back_populates
          (.parents ((sec.rows.filter (fun a =>
              joinMatch f.prop.secondaryjoin a pr.1
              && sqlIn (a.get rcol) f.local_values_list)).map
            (fun a => getParent db f (a.get rcol))))
          ∈ (f.populate db ev).1)
    ∧ (∀ (r : Entity) (rs : List Entity),
        f.kind = .oneToMany →
        f.path.populate_backrefs = true →
        f.related_entities db = .ok (r :: rs) →
        ∀ ev : List (Val × Entity),
          (f.populate db ev).2.2 = some .typeError
          ∧ ∀ a ∈ (f.populate db ev).1, a.attr = some f.prop.key) := by
  constructor
  · intro sec rcol qs prs hk hpb hsec hr hbi ev pr hpr huniq
    have hprs : prs = m2mJoin (db.table f.prop.mapper_class) sec.rows
        f.prop.secondaryjoin rcol f.local_values_list := by
      unfold Fetcher.backref_input at hbi
      rw [hk] at hbi
      unfold Fetcher.m2m_related_entities at hbi
      rw [hr] at hbi
      simp only [bind, Except.bind, hsec] at hbi
      have := congrArg Prod.snd hbi
      simp only at this
      exact (Except.ok.injEq _ _ ▸ this).symm
    have hfilter : prs.filter (fun q =>
        f.local_values q.1 == f.local_values pr.1)
        = (sec.rows.filter (fun a => joinMatch f.prop.secondaryjoin a pr.1
            && sqlIn (a.get rcol) f.local_values_list)).map
          (fun a => (pr.1, a.get rcol)) := by
      rw [hprs]
      exact m2mJoin_filter_local f.prop.secondaryjoin sec.rows rcol
        f.local_values_list f.prop.local_columns.headI pr.1
        (db.table f.prop.mapper_class) huniq
    have hmem : (Assign.mk pr.1 f.prop.back_populates
        (.parents ((prs.filter (fun q =>
            f.local_values q.1 == f.local_values pr.1)).map
          (fun q => getParent db f q.2))))
        ∈ f.populate_backrefs db prs := List.mem_map_of_mem _ hpr
    rw [hfilter, List.map_map] at hmem
    unfold Fetcher.populate
    simp only [hpb, hbi, if_true]
    exact List.mem_append_right _ hmem
  · intro r rs hk hpb hrel ev
    have hbi : f.backref_input db = ([f.prop.mapper_class], .error .typeError) := by
      unfold Fetcher.backref_input
      rw [hk, hrel]
    constructor
    · unfold Fetcher.populate
      simp [hpb, hbi]
    · intro a ha
      unfold Fetcher.populate at ha
      simp only [hpb, hbi, if_true] at ha
      rcases List.mem_map.mp ha with ⟨e, _, rfl⟩
      rfl

/-- Witness for C6 amended: after the many-to-many `User.groups` fetch with
    backrefs, `group10`'s `users` attribute is set to one parent per
    association row. -/
theorem c6_backref_population_witness :
    fGroupsBR.backref_input db0 =
      (["Group"], .ok [(group10, some 1), (group10, some 1), (group10, some 2)])
    ∧ Assign.mk group10 (some "users")
        (.parents [some user1, some user1, some user2])
      ∈ (fGroupsBR.populate db0 []).1 :=
  ⟨rfl,
   (c6_backref_population db0 fGroupsBR).1 groupsSecondary "user_id" ["Group"]
      [(group10, some 1), (group10, some 1), (group10, some 2)]
      rfl rfl rfl rfl rfl [] (group10, some 1)
      (List.mem_cons_self _ _) rfl⟩

/-! ### C4 -/

/-- C4 counterexample: a composite built from a one-to-many sibling and a
    many-to-many sibling (both targeting `Team`) fails — the many-to-many
    sibling's base condition resolves the association-table column on the
    related class (`getattr(Team, 'club_ref')`, an `AttributeError`) — so
    the composite run assigns nothing, while the many-to-many sibling run
    alone assigns every parent its teams. -/
theorem c4_composite_counterexample :
    FetchingCoordinator db0 [club1, club2]
        ⟨false, .composite [.str "teams", .str "m2m_teams"]⟩ =
      ([], [], some .attributeError)
    ∧ FetchingCoordinator db0 [club1, club2]
        ⟨false, .single (.str "m2m_teams")⟩ =
      ([Assign.mk club1 (some "m2m_teams") (.many [team1]),
        Assign.mk club2 (some "m2m_teams") (.many [])], ["Team"], none)
    ∧ (FetchingCoordinator db0 [club1, club2]
          ⟨false, .composite [.str "teams", .str "m2m_teams"]⟩).1 ≠
      (FetchingCoordinator db0 [club1, club2]
          ⟨false, .single (.str "m2m_teams")⟩).1 := by
  refine ⟨rfl, rfl, fun h => ?_⟩
  rw [show (FetchingCoordinator db0 [club1, club2]
      ⟨false, .composite [.str "teams", .str "m2m_teams"]⟩).1 =
    ([] : List Assign) from rfl] at h
  exact List.noConfusion (h.trans rfl)

/-- One row of `CompositeFetcher.fetch` for two simple siblings: each
    sibling with a non-null remote value on the row receives one tagged
    event. -/
theorem appendRowEvents_two (f g : Fetcher) (rf rg : ColName) (row : Entity)
    (hkf : f.kind ≠ .manyToMany) (hkg : g.kind ≠ .manyToMany)
    (hrf : f.remote_column_name = .ok rf)
    (hrg : g.remote_column_name = .ok rg) :
    appendRowEvents (enumFrom 0 [f, g]) row =
      .ok ((if (row.get rf).isSome then [(0, row.get rf, row)] else []) ++
           ((if (row.get rg).isSome then [(1, row.get rg, row)] else []) ++ [])) := by
  cases hkf2 : f.kind with
  | manyToMany => exact absurd hkf2 hkf
  | oneToMany =>
    cases hkg2 : g.kind with
    | manyToMany => exact absurd hkg2 hkg
    | oneToMany =>
      cases hc1 : (row.get rf).isSome <;> cases hc2 : (row.get rg).isSome <;>
        simp [enumFrom, appendRowEvents, hrf, hrg, hkf2, hkg2, hc1, hc2,
          bind, Except.bind]
    | manyToOne =>
      cases hc1 : (row.get rf).isSome <;> cases hc2 : (row.get rg).isSome <;>
        simp [enumFrom, appendRowEvents, hrf, hrg, hkf2, hkg2, hc1, hc2,
          bind, Except.bind]
  | manyToOne =>
    cases hkg2 : g.kind with
    | manyToMany => exact absurd hkg2 hkg
    | oneToMany =>
      cases hc1 : (row.get rf).isSome <;> cases hc2 : (row.get rg).isSome <;>
        simp [enumFrom, appendRowEvents, hrf, hrg, hkf2, hkg2, hc1, hc2,
          bind, Except.bind]
    | manyToOne =>
      cases hc1 : (row.get rf).isSome <;> cases hc2 : (row.get rg).isSome <;>
        simp [enumFrom, appendRowEvents, hrf, hrg, hkf2, hkg2, hc1, hc2,
          bind, Except.bind]

/-- The row loop of `CompositeFetcher.fetch` concatenates the per-row
    events when no row errors. -/
theorem appendAllEvents_flatMap (fs : List (Nat × Fetcher))
    (h : Entity → List (Nat × Val × Entity))
    (hrow : ∀ row, appendRowEvents fs row = .ok (h row)) :
    ∀ rows : List Entity, appendAllEvents fs rows = .ok (rows.flatMap h)
  | [] => rfl
  | row :: rows => by
    have ih := appendAllEvents_flatMap fs h hrow rows
    simp [appendAllEvents, hrow row, ih, List.flatMap_cons, bind, Except.bind]

/-- `eventsFor` distributes over the per-row concatenation. -/
theorem eventsFor_flatMap (i : Nat) (h : Entity → List (Nat × Val × Entity)) :
    ∀ rows : List Entity,
      eventsFor i (rows.flatMap h) = rows.flatMap (fun row => eventsFor i (h row))
  | [] => rfl
  | row :: rows => by
    have ih := eventsFor_flatMap i h rows
    simp only [List.flatMap_cons, eventsFor, List.filter_append,
      List.map_append] at ih ⊢
    rw [ih]

/-- Collecting the singleton contributions selects the rows with a non-null
    key. -/
theorem flatMap_if_singleton (c : Entity → Bool) (key : Entity → Val) :
    ∀ rows : List Entity,
      rows.flatMap (fun row => if c row then [(key row, row)] else [])
      = (rows.filter c).map (fun row => (key row, row))
  | [] => rfl
  | row :: rows => by
    have ih := flatMap_if_singleton c key rows
    cases hc : c row <;>
      simp [List.flatMap_cons, List.filter_cons, hc, ih]

/-- Position 0's share of one composite row. -/
theorem eventsFor_zero_row (rf rg : ColName) (row : Entity) :
    eventsFor 0 ((if (row.get rf).isSome then [(0, row.get rf, row)] else []) ++
        ((if (row.get rg).isSome then [(1, row.get rg, row)] else []) ++ []))
    = if (row.get rf).isSome then [(row.get rf, row)] else [] := by
  cases (row.get rf).isSome <;> cases (row.get rg).isSome <;> rfl

/-- Position 1's share of one composite row. -/
theorem eventsFor_one_row (rf rg : ColName) (row : Entity) :
    eventsFor 1 ((if (row.get rf).isSome then [(0, row.get rf, row)] else []) ++
        ((if (row.get rg).isSome then [(1, row.get rg, row)] else []) ++ []))
    = if (row.get rg).isSome then [(row.get rg, row)] else [] := by
  cases (row.get rf).isSome <;> cases (row.get rg).isSome <;> rfl

/-- Grouping at a key drawn from the sibling's own local key set: the rows a
    sibling receives from the combined OR query coincide, key by key, with
    the rows its own query returns — rows attributable only to the other
    sibling never land under such a key. -/
theorem group_filter_eq (table : List Entity) (rcol : ColName)
    (locals : List Val) (condOr : Entity → Bool) (k : Val)
    (himp : ∀ row, sqlIn (row.get rcol) locals = true → condOr row = true)
    (hk : k ∈ locals) :
    (((table.filter condOr).filter (fun r => (r.get rcol).isSome)).map
        (fun r => (r.get rcol, r))).filter (fun p => p.1 == k)
    = ((table.filter (fun row => sqlIn (row.get rcol) locals)).map
        (fun r => (r.get rcol, r))).filter (fun p => p.1 == k) := by
  have hkey : ∀ r : Entity, (r.get rcol == k) = true →
      (r.get rcol).isSome = true → sqlIn (r.get rcol) locals = true := by
    intro r h3 h2
    have hre : r.get rcol = k := by simpa using h3
    rw [hre] at h2 ⊢
    cases k with
    | none => simp at h2
    | some x =>
      simp only [sqlIn, List.contains]
      exact List.elem_iff.mpr hk
  simp only [List.filter_map, List.filter_filter, Function.comp]
  refine congrArg (List.map _) (List.filter_congr ?_)
  intro r _
  cases h3 : (r.get rcol == k) with
  | false => simp [h3]
  | true =>
    cases h2 : (r.get rcol).isSome with
    | false =>
      have hre : r.get rcol = k := by simpa using h3
      have hsql : sqlIn (r.get rcol) locals = false := by
        cases hv : r.get rcol with
        | none => simp [sqlIn]
        | some x => rw [hv] at h2; simp at h2
      simp [h3, h2, hsql]
    | true =>
      have h4 := hkey r h3 h2
      have h5 := himp r h4
      simp [h3, h2, h4, h5]

/-- `populate` forward assignments only read the grouping dictionary at the
    entities' own local key values. -/
theorem populateForward_eq (f : Fetcher) (ev1 ev2 : List (Val × Entity))
    (h : ∀ e ∈ f.path.entities,
      ev1.filter (fun p => p.1 == f.local_values e) =
        ev2.filter (fun p => p.1 == f.local_values e)) :
    f.populateForward ev1 = f.populateForward ev2 := by
  unfold Fetcher.populateForward
  apply List.map_congr_left
  intro e he
  have hf := h e he
  unfold dictLookup
  cases f.kind <;> rw [hf]

/-- Without the backref request, `populate` is exactly the forward loop. -/
theorem populate_no_backrefs (db : DB) (f : Fetcher)
    (hpb : f.path.populate_backrefs = false) (ev : List (Val × Entity)) :
    f.populate db ev = (f.populateForward ev, [], none) := by
  unfold Fetcher.populate
  simp [hpb]

/-- C4 amended: for a composite of two sibling one-to-many / many-to-one
    fetchers targeting the same related class, with backref population not
    requested, the composite issues one combined query over the OR of the
    siblings' conditions, and its fetch-then-populate performs exactly the
    assignments each sibling's own fetch-then-populate would perform —
    each sibling's grouping is unaffected by rows attributable only to the
    other sibling.  (A many-to-many sibling instead fails: its base
    condition resolves the association column on the related class and it
    has no `append_entity`.) -/
theorem c4_composite_equivalence (db : DB) (f g : Fetcher) (rf rg : ColName)
    (condF condG : Entity → Bool)
    (hkf : f.kind ≠ .manyToMany) (hkg : g.kind ≠ .manyToMany)
    (hm : g.prop.mapper_class = f.prop.mapper_class)
    (hrf : f.remote_column_name = .ok rf)
    (hrg : g.remote_column_name = .ok rg)
    (hcf : f.condition db = .ok condF)
    (hcg : g.condition db = .ok condG)
    (hpf : f.path.populate_backrefs = false)
    (hpg : g.path.populate_backrefs = false) :
    ((CompositeFetcher.mk [f, g]).fetch db).1 = [f.prop.mapper_class]
    ∧ ∀ (evC : List (Nat × Val × Entity)) (evF evG : List (Val × Entity)),
        ((CompositeFetcher.mk [f, g]).fetch db).2 = .ok evC →
        (f.fetch db).2 = .ok evF →
        (g.fetch db).2 = .ok evG →
        (CompositeFetcher.mk [f, g]).populate db evC
          = ((f.populate db evF).1 ++ (g.populate db evG).1, [], none) := by
  have hcondF := condition_spec db f rf condF hrf hcf
  have hcondG := condition_spec db g rg condG hrg hcg
  have hcc : (CompositeFetcher.mk [f, g]).condition db =
      .ok (fun e => [condF, condG].any (fun cond => cond e)) := by
    unfold CompositeFetcher.condition
    simp [List.mapM, List.mapM.loop, hcf, hcg, bind, Except.bind, pure,
      Except.pure]
  set condAny : Entity → Bool :=
    fun e => [condF, condG].any (fun cond => cond e) with hcondAny
  set table := db.table f.prop.mapper_class with htable
  have hfetchC : (CompositeFetcher.mk [f, g]).fetch db =
      ([f.prop.mapper_class],
       appendAllEvents (enumFrom 0 [f, g]) (table.filter condAny)) := by
    simp only [CompositeFetcher.fetch, hcc]
  have hrowfun : ∀ row, appendRowEvents (enumFrom 0 [f, g]) row = .ok
      ((if (row.get rf).isSome then [(0, row.get rf, row)] else []) ++
       ((if (row.get rg).isSome then [(1, row.get rg, row)] else []) ++ [])) :=
    fun row => appendRowEvents_two f g rf rg row hkf hkg hrf hrg
  have hall := appendAllEvents_flatMap (enumFrom 0 [f, g]) _ hrowfun
    (table.filter condAny)
  constructor
  · rw [hfetchC]
  · intro evC evF evG h1 h2 h3
    have h1' : appendAllEvents (enumFrom 0 [f, g]) (table.filter condAny)
        = .ok evC := by rw [hfetchC] at h1; exact h1
    rw [hall] at h1'
    have hevC : (table.filter condAny).flatMap (fun row =>
        (if (row.get rf).isSome then [(0, row.get rf, row)] else []) ++
        ((if (row.get rg).isSome then [(1, row.get rg, row)] else []) ++ []))
        = evC := Except.ok.injEq _ _ ▸ h1'
    rw [fetch_simple_spec db f rf condF hkf hrf hcf] at h2
    have hevF : (table.filter condF).map (fun r => (r.get rf, r)) = evF :=
      Except.ok.injEq _ _ ▸ h2
    rw [fetch_simple_spec db g rg condG hkg hrg hcg, hm] at h3
    have hevG : (table.filter condG).map (fun r => (r.get rg, r)) = evG :=
      Except.ok.injEq _ _ ▸ h3
    have hev0 : eventsFor 0 evC =
        ((table.filter condAny).filter (fun r => (r.get rf).isSome)).map
          (fun r => (r.get rf, r)) := by
      rw [← hevC, eventsFor_flatMap]
      simp only [eventsFor_zero_row]
      exact flatMap_if_singleton _ _ (table.filter condAny)
    have hev1 : eventsFor 1 evC =
        ((table.filter condAny).filter (fun r => (r.get rg).isSome)).map
          (fun r => (r.get rg, r)) := by
      rw [← hevC, eventsFor_flatMap]
      simp only [eventsFor_one_row]
      exact flatMap_if_singleton _ _ (table.filter condAny)
    have hpopC : (CompositeFetcher.mk [f, g]).populate db evC =
        (f.populateForward (eventsFor 0 evC) ++
          g.populateForward (eventsFor 1 evC), [], none) := by
      unfold CompositeFetcher.populate
      simp [enumFrom, runPopulates, populate_no_backrefs db f hpf,
        populate_no_backrefs db g hpg]
    have heqF : f.populateForward (eventsFor 0 evC) = f.populateForward evF := by
      apply populateForward_eq
      intro e he
      have himpF : ∀ row, sqlIn (row.get rf) f.local_values_list = true →
          condAny row = true := by
        intro row hsql
        have hcf2 : condF row = true := by rw [hcondF]; exact hsql
        simp [hcondAny, hcf2]
      have hgrp := group_filter_eq table rf f.local_values_list condAny
        (f.local_values e) himpF (List.mem_map_of_mem f.local_values he)
      rw [hev0, ← hevF, hgrp, hcondF]
    have heqG : g.populateForward (eventsFor 1 evC) = g.populateForward evG := by
      apply populateForward_eq
      intro e he
      have himpG : ∀ row, sqlIn (row.get rg) g.local_values_list = true →
          condAny row = true := by
        intro row hsql
        have hcg2 : condG row = true := by rw [hcondG]; exact hsql
        simp [hcondAny, hcg2]
      have hgrp := group_filter_eq table rg g.local_values_list condAny
        (g.local_values e) himpG (List.mem_map_of_mem g.local_values he)
      rw [hev1, ← hevG, hgrp, hcondG]
    rw [hpopC, populate_no_backrefs db f hpf evF, populate_no_backrefs db g hpg evG,
      heqF, heqG]

/-- Witness for C4 amended: `Club.teams` (one-to-many) and `Club.best_team`
    (many-to-one) composed over the `Team` class. -/
theorem c4_composite_equivalence_witness :
    ((CompositeFetcher.mk [fTeams, fBest]).fetch db0).2 =
      .ok [(0, some 1, team1), (1, some 10, team1),
           (0, some 1, team2), (1, some 11, team2),
           (0, some 2, team3), (1, some 12, team3)]
    ∧ (CompositeFetcher.mk [fTeams, fBest]).populate db0
        [(0, some 1, team1), (1, some 10, team1),
         (0, some 1, team2), (1, some 11, team2),
         (0, some 2, team3), (1, some 12, team3)]
      = ((fTeams.populate db0
            [(some 1, team1), (some 1, team2), (some 2, team3)]).1 ++
         (fBest.populate db0
            [(some 11, team2), (some 12, team3)]).1,
         [], none) :=
  ⟨rfl,
   (c4_composite_equivalence db0 fTeams fBest "club_id" "id"
      (fun row => sqlIn (row.get "club_id") fTeams.local_values_list)
      (fun row => sqlIn (row.get "id") fBest.local_values_list)
      (by decide) (by decide) rfl rfl rfl rfl rfl rfl rfl).2
    [(0, some 1, team1), (1, some 10, team1),
     (0, some 1, team2), (1, some 11, team2),
     (0, some 2, team3), (1, some 12, team3)]
    [(some 1, team1), (some 1, team2), (some 2, team3)]
    [(some 11, team2), (some 12, team3)]
    rfl rfl rfl⟩

end BatchFetch
